import Mathlib

/-!
Shallow embedding of the live-captioning pipeline (`live_captioning.py`):
the audio capture callback, the bounded drop-oldest frame queue, the periodic
batch assembler / transcription tick (`process_audio`), the engine loading
fallback in `main`, and the fatal stream-open path in `main`.

Modelling conventions:
- An audio frame is the int16 sample buffer delivered by one hardware
  callback (`List Int`, each sample in the int16 range).
- The `queue.Queue` of frames is a `List` with its front at the head;
  `put_nowait` appends at the tail, `get_nowait` removes the head.
- Float amplitudes are modelled as exact rationals.  Every amplitude the
  program compares is of the form `s / 32768` with `s` a machine integer
  (or a raw integer peak cast to float, which is exact), and neither
  comparison against the literal `0.01` nor against `0.001` can change
  outcome under the tiny binary-representation error of those literals:
  `s/32768 < float64(0.001)` and `s/32768 < 1/1000` agree for all integer
  `s`, and `intPeak > float64(0.01)` agrees with `intPeak > 1/100` for all
  integer peaks.  So the rational model decides every gate exactly as the
  floating-point program does.
- The speech engine (`model.transcribe`) is an opaque function from the
  normalized sample buffer (plus the `vad_filter` and `language` arguments
  the code passes) to either a list of segment texts or a raised exception
  (`Except`).
-/

namespace LiveCaptioning

/-- One audio frame: the int16 sample buffer delivered by one hardware
callback (`indata`). -/
abbrev Frame := List Int

/-- `SAMPLE_RATE = 16000` from the configuration block. -/
def SAMPLE_RATE : Nat := 16000

/-- `BLOCKSIZE = 8000` from the configuration block. -/
def BLOCKSIZE : Nat := 8000

/-- `MAX_QUEUE_SECONDS = 5` from the configuration block. -/
def MAX_QUEUE_SECONDS : Nat := 5

/-- `MAX_QUEUE_SIZE = max(1, int((MAX_QUEUE_SECONDS * SAMPLE_RATE) / max(1, BLOCKSIZE)))`.
Python `int()` of the nonnegative division truncates, as Nat division does. -/
def MAX_QUEUE_SIZE : Nat := max 1 ((MAX_QUEUE_SECONDS * SAMPLE_RATE) / max 1 BLOCKSIZE)

/-- `AUDIO_QUEUE_MAXSIZE = max(2, MAX_QUEUE_SIZE * 2)` — the queue capacity `C`. -/
def AUDIO_QUEUE_MAXSIZE : Nat := max 2 (MAX_QUEUE_SIZE * 2)

/-- numpy absolute value on an int16 lane: two's-complement wraparound makes
`np.abs` of `-32768` yield `-32768` again; every other in-range value maps to
its ordinary absolute value. -/
def int16Abs (s : Int) : Int := if s = -32768 then -32768 else (s.natAbs : Int)

/-- `float(np.max(np.abs(indata)))` over one frame.  `np.max` needs a
nonempty array; hardware delivery guarantees `BLOCKSIZE` samples per frame,
so the `[]` case is never reached by the program (we give it the value 0). -/
def npMaxAbsInt16 (f : Frame) : Int :=
  match f.map int16Abs with
  | [] => 0
  | x :: xs => xs.foldl max x

/-- The drop-oldest push around `audio_q` (`live_captioning.py` lines 52-61):
if `audio_q.full()` first `get_nowait()` the oldest element, then
`put_nowait` the new frame; a `queue.Full` raised by `put_nowait` (only
possible if the queue is still at capacity) is swallowed, dropping the frame. -/
def queuePush (q : List Frame) (f : Frame) : List Frame :=
  let q1 := if AUDIO_QUEUE_MAXSIZE ≤ q.length then q.drop 1 else q
  if q1.length < AUDIO_QUEUE_MAXSIZE then q1 ++ [f] else q1

/-- `audio_callback(indata, frames, time, status)` effect on the queue.
The callback computes `max_amp = float(np.max(np.abs(indata)))` and performs
the drop-oldest push only under `max_amp > 0.01`; otherwise the queue is
untouched.  (The driver `status` print is pure logging with no effect on the
queue and is not part of the state.) -/
def audio_callback (q : List Frame) (indata : Frame) : List Frame :=
  if (1 : ℚ)/100 < (npMaxAbsInt16 indata : ℚ) then queuePush q indata else q

/-- Folding a sequence of frames through the drop-oldest push. -/
def pushAll (q : List Frame) (fs : List Frame) : List Frame :=
  fs.foldl queuePush q

/-- The drain loop at the top of `process_audio` (lines 281-285):
`for _ in range(n): try: chunks.append(audio_q.get_nowait()) except queue.Empty: break`.
Returns the drained chunks (in FIFO order) and the remaining queue. -/
def drain_up_to : Nat → List Frame → List Frame × List Frame
  | 0, q => ([], q)
  | _ + 1, [] => ([], [])
  | n + 1, f :: q =>
      let r := drain_up_to n q
      (f :: r.1, r.2)

/-- A concatenated sample buffer tagged with its dtype, as
`np.concatenate(chunks).flatten()` produces: int16 when the chunks are int16
(the stream's `DTYPE`), floating-point otherwise. -/
inductive AudioData
  | i16 (samples : List Int)
  | f32 (samples : List ℚ)

/-- The normalization step of `process_audio` (lines 293-296): int16 data is
cast to float32 and divided by `32768.0`; floating-point data is only cast to
float32 (`astype(np.float32)`), which on float32 input leaves every sample
unchanged.  Each quotient `s / 32768` has a short mantissa, so the float32
arithmetic is exact and the rational model loses nothing. -/
def normalize : AudioData → List ℚ
  | .i16 s => s.map fun (v : Int) => (v : ℚ) / 32768
  | .f32 s => s

/-- `peak = np.max(np.abs(audio)) if audio.size else 0` (line 298).  The
mapped absolute values are all nonnegative, so folding `max` from 0 equals
`np.max` on a nonempty buffer and yields the code's explicit 0 on an empty
one. -/
def peakAmp (s : List ℚ) : ℚ :=
  (s.map fun v => |v|).foldl max 0

/-- The silence threshold `0.001` of `if peak < 0.001` (line 299). -/
def SILENCE_THRESHOLD : ℚ := 1/1000

/-- The speech engine capability: `model.transcribe(audio, vad_filter=True,
language="en")` either returns the (finite, ordered) segment texts or raises. -/
abbrev Engine := List ℚ → Bool → String → Except String (List String)

/-- Which control path one `process_audio` tick took. -/
inductive TickOutcome
  | noData
  | silent
  | modelMissing
  | transcribeFailed (err : String)
  | forwarded (segments : List String)
deriving DecidableEq

/-- Observable result of one `process_audio` tick: the control path, the
queue left behind, the diagnostic lines printed, and the texts appended to
the caption sink (in order). -/
structure TickResult where
  outcome : TickOutcome
  queue : List Frame
  logs : List String
  sink : List String
deriving DecidableEq

/-- Whether the tick invoked `model.transcribe` (reached line 307). -/
def transcribeAttempted : TickOutcome → Bool
  | .transcribeFailed _ => true
  | .forwarded _ => true
  | _ => false

/-- The normalized batch a tick assembles from queue `q`: drain up to
`MAX_QUEUE_SIZE` chunks, concatenate, normalize as int16 (the stream dtype). -/
def batchOf (q : List Frame) : List ℚ :=
  normalize (.i16 (drain_up_to MAX_QUEUE_SIZE q).1.flatten)

/-- `process_audio()` (lines 270-321) as a state transformer on
`(model, audio_q)`.  The function reads the global `model` and never writes
it; we return it explicitly to make that visible.  Control paths: early
return on empty queue; drain; early return on no chunks; concatenate and
normalize; silence gate; `model is None` diagnostic; `model.transcribe`
inside `try`, with every segment forwarded to the window and logged, and any
exception caught and logged at batch granularity. -/
def process_audio (m : Option Engine) (q : List Frame) : Option Engine × TickResult :=
  if q.isEmpty then (m, ⟨.noData, q, [], []⟩)
  else
    let d := drain_up_to MAX_QUEUE_SIZE q
    if d.1.isEmpty then (m, ⟨.noData, d.2, [], []⟩)
    else
      let audio := normalize (.i16 d.1.flatten)
      let peak := peakAmp audio
      if peak < SILENCE_THRESHOLD then (m, ⟨.silent, d.2, [], []⟩)
      else
        match m with
        | none =>
            (none, ⟨.modelMissing, d.2,
              ["[ERROR] Model not loaded yet; skipping transcription."], []⟩)
        | some eng =>
            match eng audio true "en" with
            | .error e =>
                (some eng, ⟨.transcribeFailed e, d.2,
                  ["[ERROR] Transcription failed: " ++ e], []⟩)
            | .ok segs =>
                (some eng, ⟨.forwarded segs, d.2,
                  segs.map fun t => "[TRANSCRIPTION] " ++ t, segs⟩)

/-! ## Engine loading (`main`, lines 389-420) -/

/-- Compute device requested of `WhisperModel`. -/
inductive Device
  | cuda
  | cpu
deriving DecidableEq

/-- `compute_type` requested of `WhisperModel`. -/
inductive ComputeType
  | float16
  | int8
deriving DecidableEq

/-- One `WhisperModel(...)` constructor call as observed by the fallback
logic: which device and precision were requested. -/
structure LoadAttempt where
  device : Device
  compute : ComputeType
deriving DecidableEq

/-- Orchestrator state after `main`'s load section: `ready d` means the
global `model` is bound to a model on device `d`; `failed` means
`model is None`. -/
inductive OrchestratorState
  | ready (d : Device)
  | failed
deriving DecidableEq

/-- The model-loading section of `main` (lines 389-420).  Environment
parameters: whether a local `model_path` was resolved, whether the user
consented to a download (the GUI-unavailable case defaults to decline,
line 404), and whether the CUDA / CPU `WhisperModel` constructor calls
succeed.  Returns the final orchestrator state and the list of constructor
attempts in order.  Paths: with a model path, try
`WhisperModel(path, device="cuda", compute_type="float16")`; without one,
ask consent, and on yes try `WhisperModel("tiny", "cuda", "float16")`, on no
set `model = None` with no attempt (and no exception, so no CPU fallback).
Any exception from the `try` body falls to
`WhisperModel("tiny", device="cpu", compute_type="int8")`; if that also
raises, `model = None`. -/
def load_model (modelPath : Option String) (consent : Bool) (gpuOk : Bool)
    (cpuOk : Bool) : OrchestratorState × List LoadAttempt :=
  let gpuAttempt : LoadAttempt := ⟨.cuda, .float16⟩
  let cpuAttempt : LoadAttempt := ⟨.cpu, .int8⟩
  let attemptLoad : OrchestratorState × List LoadAttempt :=
    if gpuOk then (.ready .cuda, [gpuAttempt])
    else if cpuOk then (.ready .cpu, [gpuAttempt, cpuAttempt])
    else (.failed, [gpuAttempt, cpuAttempt])
  match modelPath with
  | some _ => attemptLoad
  | none => if consent then attemptLoad else (.failed, [])

/-! ## Stream startup (`main`, lines 431-465) -/

/-- Whether the process is still running its event loop or has exited. -/
inductive ExitStatus
  | running
  | exited (code : Nat)
deriving DecidableEq

/-- The tail of `main` after the load section: open the input stream and run
the Qt event loop inside `try`; any failure to open the stream (no usable
device, driver rejection) raises into the `except` block which prints and
calls `sys.exit(1)`.  No other path in `main` exits: load failures of both
kinds leave the process running with `model = None`. -/
def main_model (modelPath : Option String) (consent : Bool) (gpuOk : Bool)
    (cpuOk : Bool) (streamOpenOk : Bool) : OrchestratorState × ExitStatus :=
  let loaded := load_model modelPath consent gpuOk cpuOk
  if streamOpenOk then (loaded.1, .running) else (loaded.1, .exited 1)

/-- The all-zero frame a silent hardware callback delivers. -/
def zeroFrame : Frame := List.replicate BLOCKSIZE 0

/-! ## Helper lemmas -/

theorem drain_eq (n : Nat) (q : List Frame) :
    drain_up_to n q = (q.take n, q.drop n) := by
  induction n generalizing q with
  | zero => simp [drain_up_to]
  | succ n ih =>
    cases q with
    | nil => simp [drain_up_to]
    | cons f q => simp [drain_up_to, ih]

theorem le_foldl_max_init {α : Type} [LinearOrder α] (l : List α) (a : α) :
    a ≤ l.foldl max a := by
  induction l generalizing a with
  | nil => exact le_refl a
  | cons x xs ih => exact le_trans (le_max_left a x) (ih (max a x))

theorem foldl_max_le {α : Type} [LinearOrder α] (l : List α) (a c : α)
    (ha : a ≤ c) (h : ∀ x ∈ l, x ≤ c) : l.foldl max a ≤ c := by
  induction l generalizing a with
  | nil => exact ha
  | cons x xs ih =>
    exact ih (max a x) (max_le ha (h x (List.mem_cons_self x xs)))
      fun y hy => h y (List.mem_cons_of_mem x hy)

theorem foldl_max_ge_of_mem {α : Type} [LinearOrder α] {l : List α} {x : α}
    (hx : x ∈ l) (a : α) : x ≤ l.foldl max a := by
  induction l generalizing a with
  | nil => cases hx
  | cons y ys ih =>
    rcases List.mem_cons.mp hx with h | h
    · subst h
      exact le_trans (le_max_right a x) (le_foldl_max_init ys (max a x))
    · exact ih h (max a y)

theorem peakAmp_nonneg (s : List ℚ) : 0 ≤ peakAmp s :=
  le_foldl_max_init _ 0

theorem peakAmp_ge_of_mem {s : List ℚ} {v : ℚ} (hv : v ∈ s) : |v| ≤ peakAmp s :=
  foldl_max_ge_of_mem (List.mem_map_of_mem (fun v => |v|) hv) 0

theorem peakAmp_eq_zero_of_all_zero {s : List ℚ} (h : ∀ v ∈ s, v = 0) :
    peakAmp s = 0 := by
  refine le_antisymm ?_ (peakAmp_nonneg s)
  refine foldl_max_le _ 0 0 (le_refl 0) ?_
  intro x hx
  rcases List.mem_map.mp hx with ⟨v, hv, rfl⟩
  rw [h v hv]
  simp

theorem AUDIO_QUEUE_MAXSIZE_eq : AUDIO_QUEUE_MAXSIZE = 20 := by decide

theorem queuePush_not_full (q : List Frame) (f : Frame)
    (h : q.length < AUDIO_QUEUE_MAXSIZE) : queuePush q f = q ++ [f] := by
  unfold queuePush
  rw [if_neg (show ¬ AUDIO_QUEUE_MAXSIZE ≤ q.length by omega), if_pos h]

theorem queuePush_full (q : List Frame) (f : Frame)
    (h : q.length = AUDIO_QUEUE_MAXSIZE) : queuePush q f = q.drop 1 ++ [f] := by
  have hC := AUDIO_QUEUE_MAXSIZE_eq
  unfold queuePush
  rw [if_pos (show AUDIO_QUEUE_MAXSIZE ≤ q.length from le_of_eq h.symm),
    if_pos (show (q.drop 1).length < AUDIO_QUEUE_MAXSIZE by
      rw [List.length_drop]; omega)]

theorem pushAll_eq (fs q : List Frame) (h : q.length ≤ AUDIO_QUEUE_MAXSIZE) :
    pushAll q fs = (q ++ fs).drop (q.length + fs.length - AUDIO_QUEUE_MAXSIZE) := by
  have hC := AUDIO_QUEUE_MAXSIZE_eq
  induction fs generalizing q with
  | nil =>
    simp only [pushAll, List.foldl_nil, List.append_nil, List.length_nil]
    rw [show q.length + 0 - AUDIO_QUEUE_MAXSIZE = 0 by omega, List.drop_zero]
  | cons f fs ih =>
    have hstep : pushAll q (f :: fs) = pushAll (queuePush q f) fs := rfl
    rcases lt_or_eq_of_le h with hlt | heq
    · rw [hstep, queuePush_not_full q f hlt,
        ih (q ++ [f]) (by simp only [List.length_append, List.length_cons,
          List.length_nil]; omega)]
      rw [List.append_assoc]
      simp only [List.singleton_append, List.length_append, List.length_cons,
        List.length_nil]
      congr 1
      omega
    · rw [hstep, queuePush_full q f heq,
        ih (q.drop 1 ++ [f]) (by simp only [List.length_append, List.length_drop,
          List.length_cons, List.length_nil]; omega)]
      rw [List.append_assoc, List.singleton_append,
        List.drop_append_eq_append_drop, List.drop_append_eq_append_drop,
        List.drop_drop]
      simp only [List.length_append, List.length_drop, List.length_cons,
        List.length_nil]
      congr 2 <;> omega

theorem lt_foldl_max_iff {α : Type} [LinearOrder α] (l : List α) (a c : α) :
    c < l.foldl max a ↔ c < a ∨ ∃ x ∈ l, c < x := by
  induction l generalizing a with
  | nil => simp
  | cons x xs ih =>
    rw [List.foldl_cons, ih, lt_max_iff, List.exists_mem_cons_iff, or_assoc]

theorem int16Abs_pos_iff (s : Int) : 0 < int16Abs s ↔ s ≠ 0 ∧ s ≠ -32768 := by
  unfold int16Abs
  by_cases hs : s = -32768
  · rw [if_pos hs]
    simp [hs]
  · rw [if_neg hs]
    simp only [hs, ne_eq, not_false_eq_true, and_true]
    constructor
    · intro h h0
      rw [h0] at h
      simp at h
    · intro h
      have : 0 < s.natAbs := Int.natAbs_pos.mpr h
      exact_mod_cast this

theorem intCast_gt_hundredth_iff (m : Int) : (1 : ℚ)/100 < (m : ℚ) ↔ 0 < m := by
  constructor
  · intro h
    have h0 : (0 : ℚ) < (m : ℚ) := lt_trans (by norm_num) h
    exact_mod_cast h0
  · intro h
    have h1 : (1 : Int) ≤ m := h
    have h1q : (1 : ℚ) ≤ (m : ℚ) := by exact_mod_cast h1
    linarith

theorem npMaxAbsInt16_gate (f : Frame) (hne : f ≠ []) :
    ((1 : ℚ)/100 < (npMaxAbsInt16 f : ℚ)) ↔ ∃ s ∈ f, s ≠ 0 ∧ s ≠ -32768 := by
  rw [intCast_gt_hundredth_iff]
  cases f with
  | nil => exact absurd rfl hne
  | cons s ss =>
    show 0 < (ss.map int16Abs).foldl max (int16Abs s) ↔ _
    rw [lt_foldl_max_iff]
    constructor
    · rintro (h | ⟨x, hx, hc⟩)
      · exact ⟨s, List.mem_cons_self s ss, (int16Abs_pos_iff s).mp h⟩
      · rcases List.mem_map.mp hx with ⟨v, hv, rfl⟩
        exact ⟨v, List.mem_cons_of_mem s hv, (int16Abs_pos_iff v).mp hc⟩
    · rintro ⟨v, hv, hprop⟩
      rcases List.mem_cons.mp hv with rfl | hv
      · exact Or.inl ((int16Abs_pos_iff v).mpr hprop)
      · exact Or.inr ⟨int16Abs v, List.mem_map_of_mem int16Abs hv,
          (int16Abs_pos_iff v).mpr hprop⟩

theorem npMaxAbsInt16_zeroFrame : npMaxAbsInt16 zeroFrame = 0 := by
  have h0 : int16Abs 0 = 0 := by decide
  have hB : BLOCKSIZE = 7999 + 1 := by norm_num [BLOCKSIZE]
  unfold npMaxAbsInt16 zeroFrame
  rw [hB, List.map_replicate, h0, List.replicate_succ]
  refine le_antisymm (foldl_max_le _ 0 0 (le_refl 0) ?_) (le_foldl_max_init _ 0)
  intro x hx
  rw [List.eq_of_mem_replicate hx]

theorem MAX_QUEUE_SIZE_eq : MAX_QUEUE_SIZE = 10 := by decide

theorem process_audio_eq (m : Option Engine) (q : List Frame) (hq : q ≠ []) :
    process_audio m q =
      if peakAmp (batchOf q) < SILENCE_THRESHOLD then
        (m, ⟨.silent, q.drop MAX_QUEUE_SIZE, [], []⟩)
      else
        match m with
        | none => (none, ⟨.modelMissing, q.drop MAX_QUEUE_SIZE,
            ["[ERROR] Model not loaded yet; skipping transcription."], []⟩)
        | some eng =>
          match eng (batchOf q) true "en" with
          | .error e => (some eng, ⟨.transcribeFailed e, q.drop MAX_QUEUE_SIZE,
              ["[ERROR] Transcription failed: " ++ e], []⟩)
          | .ok segs => (some eng, ⟨.forwarded segs, q.drop MAX_QUEUE_SIZE,
              segs.map (fun t => "[TRANSCRIPTION] " ++ t), segs⟩) := by
  have h1 : q.isEmpty = false := by
    cases q with
    | nil => exact absurd rfl hq
    | cons x q' => rfl
  have h2 : (q.take MAX_QUEUE_SIZE).isEmpty = false := by
    cases q with
    | nil => exact absurd rfl hq
    | cons x q' =>
      rw [show MAX_QUEUE_SIZE = 9 + 1 from by decide, List.take_succ_cons]
      rfl
  unfold process_audio batchOf
  rw [drain_eq]
  simp only [h1, h2, Bool.false_eq_true, if_false]

theorem batchOf_singleton (s : Frame) : batchOf [s] = normalize (.i16 s) := by
  unfold batchOf
  rw [drain_eq, show MAX_QUEUE_SIZE = 9 + 1 from by decide, List.take_succ_cons,
    List.take_nil]
  simp

theorem normalize_i16 (s : List Int) :
    normalize (.i16 s) = s.map (fun (v : Int) => (v : ℚ) / 32768) := rfl

theorem batchOf_one (f : Frame) :
    batchOf [f] = f.map (fun (v : Int) => (v : ℚ) / 32768) := by
  rw [batchOf_singleton]
  rfl

theorem not_silent_of_mem {s : List ℚ} {v : ℚ} (hv : v ∈ s)
    (h : SILENCE_THRESHOLD ≤ |v|) : ¬ peakAmp s < SILENCE_THRESHOLD :=
  not_lt.mpr (le_trans h (peakAmp_ge_of_mem hv))

/-! ## Claims -/

/-- C1, counterexample: the claim says no frame is ever withheld from the
queue based on its amplitude, but `audio_callback` on an all-zero frame
(8000 int16 zeros, peak amplitude 0) leaves the queue untouched, whereas the
drop-oldest push it allegedly always performs would have admitted the frame. -/
theorem C1_counterexample_zero_frame_withheld :
    audio_callback [] zeroFrame = [] ∧ queuePush [] zeroFrame = [zeroFrame] := by
  constructor
  · unfold audio_callback
    rw [npMaxAbsInt16_zeroFrame, if_neg (by norm_num)]
  · rw [queuePush_not_full [] zeroFrame (by rw [AUDIO_QUEUE_MAXSIZE_eq]; simp)]
    rfl

/-- C1, amended: the capture callback pushes a hardware frame to the bounded
queue if and only if the peak-amplitude statistic it computes exceeds 0.01;
for in-range int16 frames that means: iff the frame contains a sample other
than 0 and -32768 (`np.abs` wraps -32768 to -32768, so such a sample never
raises the computed peak above the threshold).  Frames failing the check are
withheld from the queue. -/
theorem C1_callback_amplitude_gated (q : List Frame) (f : Frame) (hne : f ≠ [])
    (hrange : ∀ s ∈ f, -32768 ≤ s ∧ s ≤ 32767) :
    audio_callback q f =
      if ∃ s ∈ f, s ≠ 0 ∧ s ≠ -32768 then queuePush q f else q := by
  unfold audio_callback
  by_cases hex : ∃ s ∈ f, s ≠ 0 ∧ s ≠ -32768
  · rw [if_pos ((npMaxAbsInt16_gate f hne).mpr hex), if_pos hex]
  · rw [if_neg (fun hc => hex ((npMaxAbsInt16_gate f hne).mp hc)), if_neg hex]

/-- Witness for the amended C1 at the concrete frame `[500, 0]`. -/
theorem C1_callback_amplitude_gated_witness :
    (([500, 0] : Frame) ≠ [] ∧ ∀ s ∈ ([500, 0] : Frame), -32768 ≤ s ∧ s ≤ 32767)
    ∧ audio_callback [] [500, 0] =
        (if ∃ s ∈ ([500, 0] : Frame), s ≠ 0 ∧ s ≠ -32768 then
          queuePush [] [500, 0] else []) :=
  ⟨⟨by decide, by decide⟩,
    C1_callback_amplitude_gated [] [500, 0] (by decide) (by decide)⟩

/-- C2: pushing `N > C` frames through the callback's drop-oldest push
(`C = AUDIO_QUEUE_MAXSIZE`) leaves exactly the last `C` frames in original
relative order; every intermediate queue length is at most `C`; and a push
against a full queue first evicts the single oldest element, then appends
the new one. -/
theorem C2_drop_oldest_keeps_last_C (fs : List Frame)
    (h : AUDIO_QUEUE_MAXSIZE < fs.length) :
    pushAll [] fs = fs.drop (fs.length - AUDIO_QUEUE_MAXSIZE)
    ∧ (pushAll [] fs).length = AUDIO_QUEUE_MAXSIZE
    ∧ (∀ i : Nat, (pushAll [] (fs.take i)).length ≤ AUDIO_QUEUE_MAXSIZE)
    ∧ (∀ (q : List Frame) (f : Frame), q.length = AUDIO_QUEUE_MAXSIZE →
        queuePush q f = q.drop 1 ++ [f]) := by
  have hmain : pushAll [] fs = fs.drop (fs.length - AUDIO_QUEUE_MAXSIZE) := by
    have hp := pushAll_eq fs [] (by simp)
    simpa using hp
  refine ⟨hmain, ?_, ?_, fun q f hf => queuePush_full q f hf⟩
  · rw [hmain, List.length_drop]
    omega
  · intro i
    have hp := pushAll_eq (fs.take i) [] (by simp)
    simp only [List.nil_append, List.length_nil, Nat.zero_add] at hp
    rw [hp, List.length_drop]
    omega

/-- Witness for C2 at 21 distinct one-sample frames (capacity is 20). -/
theorem C2_drop_oldest_keeps_last_C_witness :
    (AUDIO_QUEUE_MAXSIZE < ((List.range 21).map fun i => ([(i : Int)] : Frame)).length)
    ∧ (pushAll [] ((List.range 21).map fun i => ([(i : Int)] : Frame)) =
        ((List.range 21).map fun i => ([(i : Int)] : Frame)).drop
          (((List.range 21).map fun i => ([(i : Int)] : Frame)).length - AUDIO_QUEUE_MAXSIZE)
        ∧ (pushAll [] ((List.range 21).map fun i => ([(i : Int)] : Frame))).length =
            AUDIO_QUEUE_MAXSIZE
        ∧ (∀ i : Nat,
            (pushAll [] (((List.range 21).map fun i => ([(i : Int)] : Frame)).take i)).length ≤
              AUDIO_QUEUE_MAXSIZE)
        ∧ (∀ (q : List Frame) (f : Frame), q.length = AUDIO_QUEUE_MAXSIZE →
            queuePush q f = q.drop 1 ++ [f])) :=
  ⟨by decide, C2_drop_oldest_keeps_last_C _ (by decide)⟩

/-- C3: the non-blocking drain returns exactly `min n size` frames, the
original FIFO prefix of the queue; the remaining queue is the matching
suffix, so the size decreases by exactly the count returned; and a tick on
an empty queue is a no-op (`noData`) rather than an error. -/
theorem C3_drain_returns_fifo_prefix (q : List Frame) (n : Nat) (m : Option Engine) :
    (drain_up_to n q).1 = q.take n
    ∧ (drain_up_to n q).1.length = min n q.length
    ∧ (drain_up_to n q).1 ++ (drain_up_to n q).2 = q
    ∧ (drain_up_to n q).2.length = q.length - (drain_up_to n q).1.length
    ∧ process_audio m [] = (m, ⟨.noData, [], [], []⟩) := by
  have hd := drain_eq n q
  refine ⟨?_, ?_, ?_, ?_, rfl⟩
  · rw [hd]
  · rw [hd]
    exact List.length_take n q
  · rw [hd]
    exact List.take_append_drop n q
  · rw [hd, show ((q.take n, q.drop n).2).length = (q.drop n).length from rfl,
      show ((q.take n, q.drop n).1).length = (q.take n).length from rfl,
      List.length_drop, List.length_take]
    omega

/-- C10: every tick — including ticks that end in a skip path (empty drain,
silence gate, engine missing) — permanently removes the drained prefix of up
to `MAX_QUEUE_SIZE` frames from the queue; the queue left behind is exactly
the suffix beyond those frames, so skipped audio is never returned for a
retry. -/
theorem C10_skipped_ticks_still_consume (m : Option Engine) (q : List Frame) :
    (process_audio m q).2.queue = q.drop MAX_QUEUE_SIZE
    ∧ (drain_up_to MAX_QUEUE_SIZE q).1 = q.take MAX_QUEUE_SIZE := by
  constructor
  · by_cases hq : q = []
    · subst hq
      rfl
    · rw [process_audio_eq m q hq]
      by_cases hpeak : peakAmp (batchOf q) < SILENCE_THRESHOLD
      · rw [if_pos hpeak]
      · rw [if_neg hpeak]
        cases m with
        | none => rfl
        | some eng =>
          cases heng : eng (batchOf q) true "en" with
          | error e => simp [heng]
          | ok segs => simp [heng]
  · rw [drain_eq]

/-- C4: normalization of an int16 batch divides every sample by 32768,
landing in `[-1, 1]`; floating-point batches pass through unchanged; an
all-zero int16 batch has peak amplitude 0 and its tick is silence-gated with
no transcription call; a batch holding a full-scale int16 sample has peak
amplitude at least `32767/32768 ≈ 1` and is not gated. -/
theorem C4_normalization_bounds_and_gate (m : Option Engine) (s : List Int)
    (hs : s ≠ []) (hr : ∀ v ∈ s, -32768 ≤ v ∧ v ≤ 32767) :
    (∀ x ∈ normalize (.i16 s), -1 ≤ x ∧ x ≤ 1)
    ∧ (∀ t : List ℚ, normalize (.f32 t) = t)
    ∧ ((∀ v ∈ s, v = 0) →
        peakAmp (normalize (.i16 s)) = 0
        ∧ (process_audio m [s]).2.outcome = .silent
        ∧ transcribeAttempted (process_audio m [s]).2.outcome = false)
    ∧ ((32767 ∈ s ∨ -32768 ∈ s) →
        (32767 : ℚ)/32768 ≤ peakAmp (normalize (.i16 s))
        ∧ ¬ peakAmp (normalize (.i16 s)) < SILENCE_THRESHOLD
        ∧ ∀ eng : Engine,
            transcribeAttempted (process_audio (some eng) [s]).2.outcome = true) := by
  have h32 : (0 : ℚ) < 32768 := by norm_num
  have hnorm := normalize_i16 s
  refine ⟨?_, fun t => rfl, ?_, ?_⟩
  · intro x hx
    rw [hnorm] at hx
    rcases List.mem_map.mp hx with ⟨v, hv, rfl⟩
    obtain ⟨h1, h2⟩ := hr v hv
    have h1q : (-32768 : ℚ) ≤ (v : ℚ) := by exact_mod_cast h1
    have h2q : (v : ℚ) ≤ 32767 := by exact_mod_cast h2
    rw [le_div_iff₀ h32, div_le_iff₀ h32]
    constructor <;> linarith
  · intro hz
    have hpeak : peakAmp (normalize (.i16 s)) = 0 := by
      refine peakAmp_eq_zero_of_all_zero ?_
      intro x hx
      rw [hnorm] at hx
      rcases List.mem_map.mp hx with ⟨v, hv, rfl⟩
      rw [hz v hv]
      norm_num
    have hlt : peakAmp (batchOf [s]) < SILENCE_THRESHOLD := by
      rw [batchOf_singleton, hpeak]
      norm_num [SILENCE_THRESHOLD]
    rw [process_audio_eq m [s] (by simp), if_pos hlt]
    exact ⟨hpeak, rfl, rfl⟩
  · intro hfull
    have hpeak : (32767 : ℚ)/32768 ≤ peakAmp (normalize (.i16 s)) := by
      rcases hfull with hmem | hmem
      · have hx : ((32767 : Int) : ℚ) / 32768 ∈ normalize (.i16 s) := by
          rw [hnorm]
          exact List.mem_map_of_mem _ hmem
        have hle := peakAmp_ge_of_mem hx
        have habs : |((32767 : Int) : ℚ) / 32768| = (32767 : ℚ)/32768 := by
          norm_num
        rw [habs] at hle
        exact hle
      · have hx : ((-32768 : Int) : ℚ) / 32768 ∈ normalize (.i16 s) := by
          rw [hnorm]
          exact List.mem_map_of_mem _ hmem
        have hle := peakAmp_ge_of_mem hx
        have habs : |((-32768 : Int) : ℚ) / 32768| = 1 := by norm_num
        rw [habs] at hle
        calc (32767 : ℚ)/32768 ≤ 1 := by norm_num
          _ ≤ _ := hle
    have hnlt : ¬ peakAmp (normalize (.i16 s)) < SILENCE_THRESHOLD := by
      rw [not_lt, SILENCE_THRESHOLD]
      calc (1 : ℚ)/1000 ≤ 32767/32768 := by norm_num
        _ ≤ _ := hpeak
    refine ⟨hpeak, hnlt, ?_⟩
    intro eng
    have hnlt' : ¬ peakAmp (batchOf [s]) < SILENCE_THRESHOLD := by
      rw [batchOf_singleton]
      exact hnlt
    rw [process_audio_eq (some eng) [s] (by simp), if_neg hnlt']
    cases heng : eng (batchOf [s]) true "en" with
    | error e => simp [heng, transcribeAttempted]
    | ok segs => simp [heng, transcribeAttempted]

/-- Witness for C4 at the single-frame batch `[32767, 0]`. -/
theorem C4_normalization_bounds_and_gate_witness :
    (([32767, 0] : List Int) ≠ []
      ∧ ∀ v ∈ ([32767, 0] : List Int), -32768 ≤ v ∧ v ≤ 32767)
    ∧ ((∀ x ∈ normalize (.i16 [32767, 0]), -1 ≤ x ∧ x ≤ 1)
    ∧ (∀ t : List ℚ, normalize (.f32 t) = t)
    ∧ ((∀ v ∈ ([32767, 0] : List Int), v = 0) →
        peakAmp (normalize (.i16 [32767, 0])) = 0
        ∧ (process_audio none [[32767, 0]]).2.outcome = .silent
        ∧ transcribeAttempted (process_audio none [[32767, 0]]).2.outcome = false)
    ∧ ((32767 ∈ ([32767, 0] : List Int) ∨ -32768 ∈ ([32767, 0] : List Int)) →
        (32767 : ℚ)/32768 ≤ peakAmp (normalize (.i16 [32767, 0]))
        ∧ ¬ peakAmp (normalize (.i16 [32767, 0])) < SILENCE_THRESHOLD
        ∧ ∀ eng : Engine,
            transcribeAttempted (process_audio (some eng) [[32767, 0]]).2.outcome = true)) :=
  ⟨⟨by decide, by decide⟩,
    C4_normalization_bounds_and_gate none [32767, 0] (by decide) (by decide)⟩

/-- C5: with a drained batch in hand, a tick whose peak amplitude is
strictly below the 0.001 threshold ends in the silence path with no
transcription call; and when the engine is loaded, `transcribe` is invoked
if and only if the peak is at or above the threshold. -/
theorem C5_silence_gate_boundary (m : Option Engine) (q : List Frame)
    (hq : q ≠ []) :
    (peakAmp (batchOf q) < SILENCE_THRESHOLD →
      (process_audio m q).2.outcome = .silent
      ∧ transcribeAttempted (process_audio m q).2.outcome = false)
    ∧ (∀ eng, m = some eng →
      (transcribeAttempted (process_audio m q).2.outcome = true ↔
        SILENCE_THRESHOLD ≤ peakAmp (batchOf q))) := by
  constructor
  · intro hpeak
    rw [process_audio_eq m q hq, if_pos hpeak]
    exact ⟨rfl, rfl⟩
  · rintro eng rfl
    rw [process_audio_eq (some eng) q hq]
    by_cases hpeak : peakAmp (batchOf q) < SILENCE_THRESHOLD
    · rw [if_pos hpeak]
      exact iff_of_false (by simp [transcribeAttempted]) (not_le.mpr hpeak)
    · rw [if_neg hpeak]
      cases heng : eng (batchOf q) true "en" with
      | error e =>
        exact iff_of_true (by simp [heng, transcribeAttempted]) (not_lt.mp hpeak)
      | ok segs =>
        exact iff_of_true (by simp [heng, transcribeAttempted]) (not_lt.mp hpeak)

/-- A concrete engine that always succeeds, for the C5 witness. -/
def engC5 : Engine := fun _ _ _ => .ok ["ok"]

/-- Witness for C5 at the one-frame queue `[[50]]` (peak 50/32768 ≥ 0.001). -/
theorem C5_silence_gate_boundary_witness :
    (([[50]] : List Frame) ≠ [])
    ∧ ((peakAmp (batchOf [[50]]) < SILENCE_THRESHOLD →
        (process_audio (some engC5) [[50]]).2.outcome = .silent
        ∧ transcribeAttempted (process_audio (some engC5) [[50]]).2.outcome = false)
    ∧ (∀ eng, some engC5 = some eng →
        (transcribeAttempted (process_audio (some engC5) [[50]]).2.outcome = true ↔
          SILENCE_THRESHOLD ≤ peakAmp (batchOf [[50]])))) :=
  ⟨by decide, C5_silence_gate_boundary (some engC5) [[50]] (by decide)⟩

/-- C6: an engine exception is caught at batch granularity — the tick logs
one transcription-failure line, forwards nothing for that batch, and leaves
the engine state untouched (still `Ready` with the same engine); a following
tick whose batch the engine accepts forwards its segments in order. -/
theorem C6_engine_exception_contained (eng : Engine) (q1 q2 : List Frame)
    (e : String) (segs : List String) (hq1 : q1 ≠ []) (hq2 : q2 ≠ [])
    (hs1 : ¬ peakAmp (batchOf q1) < SILENCE_THRESHOLD)
    (hs2 : ¬ peakAmp (batchOf q2) < SILENCE_THRESHOLD)
    (herr : eng (batchOf q1) true "en" = .error e)
    (hok : eng (batchOf q2) true "en" = .ok segs) :
    (process_audio (some eng) q1).1 = some eng
    ∧ (process_audio (some eng) q1).2.outcome = .transcribeFailed e
    ∧ (process_audio (some eng) q1).2.logs = ["[ERROR] Transcription failed: " ++ e]
    ∧ (process_audio (some eng) q1).2.sink = []
    ∧ (process_audio (some eng) q2).2.outcome = .forwarded segs
    ∧ (process_audio (some eng) q2).2.sink = segs := by
  rw [process_audio_eq (some eng) q1 hq1, process_audio_eq (some eng) q2 hq2,
    if_neg hs1, if_neg hs2]
  simp only [herr, hok]
  exact ⟨trivial, trivial, trivial, trivial, trivial, trivial⟩

/-- A concrete engine for the C6 witness: it raises on single-sample batches
(such as the batch drained from `[[100]]`) and succeeds on longer ones. -/
def engC6 : Engine := fun a _ _ =>
  if a.length = 1 then .error "cuda out of memory" else .ok ["hello"]

theorem batch100_not_silent :
    ¬ peakAmp (batchOf [[(100 : Int)]]) < SILENCE_THRESHOLD := by
  refine not_silent_of_mem (v := ((100 : Int) : ℚ)/32768) ?_ ?_
  · rw [batchOf_one]
    exact List.mem_map_of_mem _ (by decide)
  · rw [SILENCE_THRESHOLD,
      abs_of_nonneg (by norm_num : (0 : ℚ) ≤ ((100 : Int) : ℚ)/32768)]
    norm_num

theorem batch200_300_not_silent :
    ¬ peakAmp (batchOf [[(200 : Int), 300]]) < SILENCE_THRESHOLD := by
  refine not_silent_of_mem (v := ((200 : Int) : ℚ)/32768) ?_ ?_
  · rw [batchOf_one]
    exact List.mem_map_of_mem _ (by decide)
  · rw [SILENCE_THRESHOLD,
      abs_of_nonneg (by norm_num : (0 : ℚ) ≤ ((200 : Int) : ℚ)/32768)]
    norm_num

theorem engC6_err : engC6 (batchOf [[(100 : Int)]]) true "en" =
    .error "cuda out of memory" := by
  rw [engC6, batchOf_one]
  rfl

theorem engC6_ok : engC6 (batchOf [[(200 : Int), 300]]) true "en" =
    .ok ["hello"] := by
  rw [engC6, batchOf_one]
  rfl

/-- Witness for C6: `engC6` throws on the tick fed `[[100]]` and succeeds on
the next tick fed `[[200, 300]]`. -/
theorem C6_engine_exception_contained_witness :
    (([[100]] : List Frame) ≠ [] ∧ ([[200, 300]] : List Frame) ≠ []
    ∧ ¬ peakAmp (batchOf [[100]]) < SILENCE_THRESHOLD
    ∧ ¬ peakAmp (batchOf [[200, 300]]) < SILENCE_THRESHOLD
    ∧ engC6 (batchOf [[100]]) true "en" = .error "cuda out of memory"
    ∧ engC6 (batchOf [[200, 300]]) true "en" = .ok ["hello"])
    ∧ ((process_audio (some engC6) [[100]]).1 = some engC6
    ∧ (process_audio (some engC6) [[100]]).2.outcome =
        .transcribeFailed "cuda out of memory"
    ∧ (process_audio (some engC6) [[100]]).2.logs =
        ["[ERROR] Transcription failed: " ++ "cuda out of memory"]
    ∧ (process_audio (some engC6) [[100]]).2.sink = []
    ∧ (process_audio (some engC6) [[200, 300]]).2.outcome = .forwarded ["hello"]
    ∧ (process_audio (some engC6) [[200, 300]]).2.sink = ["hello"]) :=
  ⟨⟨by decide, by decide, batch100_not_silent, batch200_300_not_silent,
      engC6_err, engC6_ok⟩,
    C6_engine_exception_contained engC6 [[100]] [[200, 300]]
      "cuda out of memory" ["hello"] (by decide) (by decide)
      batch100_not_silent batch200_300_not_silent engC6_err engC6_ok⟩

/-- C7: a non-silent batch assembled while the engine is not loaded
(`model is None`) makes the tick a no-op that calls `transcribe` zero times,
prints exactly one diagnostic line, forwards nothing, and completes normally
(queue advanced, state still unloaded) so the pipeline keeps ticking. -/
theorem C7_not_ready_tick_is_noop (q : List Frame) (hq : q ≠ [])
    (hs : ¬ peakAmp (batchOf q) < SILENCE_THRESHOLD) :
    (process_audio none q).1 = none
    ∧ (process_audio none q).2.outcome = .modelMissing
    ∧ transcribeAttempted (process_audio none q).2.outcome = false
    ∧ (process_audio none q).2.logs =
        ["[ERROR] Model not loaded yet; skipping transcription."]
    ∧ (process_audio none q).2.sink = []
    ∧ (process_audio none q).2.queue = q.drop MAX_QUEUE_SIZE := by
  rw [process_audio_eq none q hq, if_neg hs]
  exact ⟨rfl, rfl, rfl, rfl, rfl, rfl⟩

/-- Witness for C7 at the non-silent one-frame queue `[[100]]`. -/
theorem C7_not_ready_tick_is_noop_witness :
    (([[100]] : List Frame) ≠ []
      ∧ ¬ peakAmp (batchOf [[100]]) < SILENCE_THRESHOLD)
    ∧ ((process_audio none [[100]]).1 = none
    ∧ (process_audio none [[100]]).2.outcome = .modelMissing
    ∧ transcribeAttempted (process_audio none [[100]]).2.outcome = false
    ∧ (process_audio none [[100]]).2.logs =
        ["[ERROR] Model not loaded yet; skipping transcription."]
    ∧ (process_audio none [[100]]).2.sink = []
    ∧ (process_audio none [[100]]).2.queue = [[100]].drop MAX_QUEUE_SIZE) :=
  ⟨⟨by decide, batch100_not_silent⟩,
    C7_not_ready_tick_is_noop [[100]] (by decide) batch100_not_silent⟩

/-- C8: when a load is actually initiated (a local model path is configured,
or the user consents to a download), the first constructor attempt is always
CUDA/float16; a CPU/int8 attempt follows exactly when the GPU attempt fails
(and then exactly once); GPU failure followed by CPU success ends `Ready` on
CPU with the single GPU attempt preceding it; and the loader ends `Failed`
(model unset, process still running) exactly when both attempts fail. -/
theorem C8_gpu_then_cpu_fallback (modelPath : Option String)
    (consent gpuOk cpuOk : Bool) (hinit : modelPath ≠ none ∨ consent = true) :
    ((load_model modelPath consent gpuOk cpuOk).2).head? =
        some ⟨.cuda, .float16⟩
    ∧ (gpuOk = true → load_model modelPath consent gpuOk cpuOk =
        (.ready .cuda, [⟨.cuda, .float16⟩]))
    ∧ (gpuOk = false → (load_model modelPath consent gpuOk cpuOk).2 =
        [⟨.cuda, .float16⟩, ⟨.cpu, .int8⟩])
    ∧ (gpuOk = false → cpuOk = true →
        (load_model modelPath consent gpuOk cpuOk).1 = .ready .cpu)
    ∧ ((load_model modelPath consent gpuOk cpuOk).1 = .failed ↔
        (gpuOk = false ∧ cpuOk = false)) := by
  have hload : load_model modelPath consent gpuOk cpuOk =
      (if gpuOk then (.ready .cuda, [⟨.cuda, .float16⟩])
       else if cpuOk then (.ready .cpu, [⟨.cuda, .float16⟩, ⟨.cpu, .int8⟩])
       else (.failed, [⟨.cuda, .float16⟩, ⟨.cpu, .int8⟩])) := by
    cases modelPath with
    | some p => rfl
    | none =>
      rcases hinit with h | h
      · exact absurd rfl h
      · rw [load_model, h, if_pos rfl]
  rw [hload]
  cases gpuOk <;> cases cpuOk <;> simp

/-- Witness for C8: a configured model path, GPU load fails, CPU load
succeeds. -/
theorem C8_gpu_then_cpu_fallback_witness :
    ((some "models/whisper/tiny" : Option String) ≠ none ∨ true = true)
    ∧ (((load_model (some "models/whisper/tiny") true false true).2).head? =
        some ⟨.cuda, .float16⟩
    ∧ (false = true → load_model (some "models/whisper/tiny") true false true =
        (.ready .cuda, [⟨.cuda, .float16⟩]))
    ∧ (false = false → (load_model (some "models/whisper/tiny") true false true).2 =
        [⟨.cuda, .float16⟩, ⟨.cpu, .int8⟩])
    ∧ (false = false → true = true →
        (load_model (some "models/whisper/tiny") true false true).1 = .ready .cpu)
    ∧ ((load_model (some "models/whisper/tiny") true false true).1 = .failed ↔
        (false = false ∧ true = false))) :=
  ⟨Or.inr rfl,
    C8_gpu_then_cpu_fallback (some "models/whisper/tiny") true false true
      (Or.inr rfl)⟩

/-- C9: the tail of `main` exits (with status 1) exactly when opening the
audio input stream fails; in particular every engine-load outcome — including
both attempts failing — leaves the process running, so stream-open failure is
the only condition surfaced as a hard failure. -/
theorem C9_stream_open_failure_is_only_fatal (modelPath : Option String)
    (consent gpuOk cpuOk streamOpenOk : Bool) :
    ((main_model modelPath consent gpuOk cpuOk streamOpenOk).2 = .exited 1 ↔
      streamOpenOk = false)
    ∧ (streamOpenOk = true →
        (main_model modelPath consent gpuOk cpuOk streamOpenOk).2 = .running)
    ∧ (main_model modelPath consent gpuOk cpuOk streamOpenOk).1 =
        (load_model modelPath consent gpuOk cpuOk).1 := by
  unfold main_model
  cases streamOpenOk <;> simp

end LiveCaptioning
